import Mathlib

/-!
Verification development for the credential-lifecycle and resilient
API-client layer of a Slack MCP server (JavaScript). The JavaScript
source is embedded shallowly: pure logic becomes Lean functions, the
process environment and filesystem become explicit values, and the
scheduler-visible state (the renewal lock) becomes an explicit state
type. Definitions marked with a spec prefix in their name are written
from the design document's wording and are compared against the
code-derived definitions in refinement theorems.
-/

namespace SlackMCP

/-- A two-part session credential: the xoxc API token and the xoxd cookie
(token-store.js). -/
structure TokenPair where
  token : String
  cookie : String
deriving DecidableEq

/- ============ C1: multi-source token resolution (token-store.js) ============ -/

/-- JavaScript truthiness of a possibly-absent string value: it is truthy
exactly when present and nonempty (the only falsy string is the empty one). -/
def truthyS : Option String → Bool
  | none => false
  | some s => !(s == "")

/-- Shape returned by getFromFile in token-store.js: the parsed credential
file, whose SLACK_TOKEN / SLACK_COOKIE / updated_at fields may each be
absent. A missing or malformed file is modelled as none at the call site. -/
structure FileTokens where
  token : Option String
  cookie : Option String
  updatedAt : Option String
deriving DecidableEq

/-- The credential sources visible to loadTokens: process environment
variables, the parsed token file, the two keychain entries (none on
non-macOS platforms or when absent), and the outcome of Chrome
extraction. -/
structure SourceEnv where
  envToken : Option String
  envCookie : Option String
  file : Option FileTokens
  keychainToken : Option String
  keychainCookie : Option String
  chrome : Option TokenPair
deriving DecidableEq

/-- The value loadTokens returns to its caller: the pair, the source tag
it reports, and the updated_at timestamp when the file supplied it. -/
structure LoadedTokens where
  token : String
  cookie : String
  source : String
  updatedAt : Option String
deriving DecidableEq

/-- The usability test loadTokens applies to the file source:
fileTokens?.token && fileTokens?.cookie (JavaScript truthiness). -/
def fileUsable : Option FileTokens → Bool
  | none => false
  | some f => truthyS f.token && truthyS f.cookie

/-- Token field of the parsed file, defaulting as JavaScript would. -/
def fileTok : Option FileTokens → String
  | none => ""
  | some f => f.token.getD ""

/-- Cookie field of the parsed file. -/
def fileCook : Option FileTokens → String
  | none => ""
  | some f => f.cookie.getD ""

/-- updated_at field of the parsed file. -/
def fileUpd : Option FileTokens → Option String
  | none => none
  | some f => f.updatedAt

/-- loadTokens(forceRefresh) from token-store.js lines 200-250: priority 1
environment variables, priority 2 token file, priority 3 keychain, each
guarded by !forceRefresh, and finally Chrome auto-extraction. The Chrome
branch of the source also persists the extracted pair via saveTokens;
persistence is modelled separately (atomicWriteSync below). -/
def loadTokens (env : SourceEnv) (forceRefresh : Bool) : Option LoadedTokens :=
  if !forceRefresh && (truthyS env.envToken && truthyS env.envCookie) then
    some ⟨env.envToken.getD "", env.envCookie.getD "", "environment", none⟩
  else if !forceRefresh && fileUsable env.file then
    some ⟨fileTok env.file, fileCook env.file, "file", fileUpd env.file⟩
  else if !forceRefresh && (truthyS env.keychainToken && truthyS env.keychainCookie) then
    some ⟨env.keychainToken.getD "", env.keychainCookie.getD "", "keychain", none⟩
  else
    match env.chrome with
    | some p => some ⟨p.token, p.cookie, "chrome-auto", none⟩
    | none => none

/-- Modelled from the spec: source 1, process environment variables,
usable when both halves are present and nonempty. -/
def specEnvSource (env : SourceEnv) : Option LoadedTokens :=
  if truthyS env.envToken && truthyS env.envCookie then
    some ⟨env.envToken.getD "", env.envCookie.getD "", "environment", none⟩
  else none

/-- Modelled from the spec: source 2, the persisted credential file. -/
def specFileSource (env : SourceEnv) : Option LoadedTokens :=
  if fileUsable env.file then
    some ⟨fileTok env.file, fileCook env.file, "file", fileUpd env.file⟩
  else none

/-- Modelled from the spec: source 3, the platform secure store. -/
def specKeychainSource (env : SourceEnv) : Option LoadedTokens :=
  if truthyS env.keychainToken && truthyS env.keychainCookie then
    some ⟨env.keychainToken.getD "", env.keychainCookie.getD "", "keychain", none⟩
  else none

/-- Modelled from the spec: source 4, on-demand extraction via the probe. -/
def specExtractionSource (env : SourceEnv) : Option LoadedTokens :=
  match env.chrome with
  | some p => some ⟨p.token, p.cookie, "chrome-auto", none⟩
  | none => none

/-- First usable source in a priority list. -/
def firstUsable : List (Option LoadedTokens) → Option LoadedTokens
  | [] => none
  | some x :: _ => some x
  | none :: t => firstUsable t

/-- Modelled from the spec: resolve(forceRenewal) returns the pair from the
highest-priority available source, in the fixed order environment then file
then secure store then extraction; when forceRenewal is true, sources 1-3
are skipped and extraction is attempted directly. -/
def specResolve (env : SourceEnv) (forceRenewal : Bool) : Option LoadedTokens :=
  if forceRenewal then specExtractionSource env
  else
    firstUsable
      [specEnvSource env, specFileSource env, specKeychainSource env, specExtractionSource env]

/- ============ C5: atomic persistence (atomicWriteSync) ============ -/

/-- A flat filesystem: an association list from paths to file contents. -/
def FS := List (String × String)

/-- Content stored at a path, if any. -/
def fsLookup (k : String) : FS → Option String
  | [] => none
  | (k2, v) :: t => if k2 = k then some v else fsLookup k t

/-- Remove a path (unlinkSync; removing an absent path is a no-op, matching
the swallowed unlink error in the source). -/
def fsDelete (k : String) : FS → FS
  | [] => []
  | (k2, v) :: t => if k2 = k then fsDelete k t else (k2, v) :: fsDelete k t

/-- Create or replace a file (writeFileSync). -/
def fsSet (k v : String) (fs : FS) : FS := (k, v) :: fsDelete k fs

/-- renameSync src dst: atomic replacement of dst by src. -/
def fsRename (src dst : String) (fs : FS) : FS :=
  match fsLookup src fs with
  | none => fs
  | some c => fsSet dst c (fsDelete src fs)

/-- Which phase of atomicWriteSync fails, if any. duringWrite models
writeFileSync throwing after leaving partial bytes behind. -/
inductive WriteFailure where
  | noFail
  | duringWrite
  | duringRename
deriving DecidableEq

/-- The sibling temporary path used by atomicWriteSync. -/
def tempName (filePath pid : String) : String := filePath ++ "." ++ pid ++ ".tmp"

/-- atomicWriteSync from token-store.js lines 75-88 (duplicated in
handlers.js lines 32-44): write content to the temp path, then rename it
over the target; on any failure, unlink the temp path and propagate the
error. The chmod step only adjusts permissions and is not modelled. The
junk argument is the partial content a failing writeFileSync leaves at the
temp path before throwing. Returns the propagated error, if any, and the
filesystem afterwards. -/
def atomicWriteSync (fs : FS) (filePath pid content junk : String) :
    WriteFailure → Option String × FS
  | .noFail =>
    (none, fsRename (tempName filePath pid) filePath (fsSet (tempName filePath pid) content fs))
  | .duringWrite =>
    (some "write failed", fsDelete (tempName filePath pid) (fsSet (tempName filePath pid) junk fs))
  | .duringRename =>
    (some "rename failed", fsDelete (tempName filePath pid) (fsSet (tempName filePath pid) content fs))

/- ============ C6: single-flight renewal lock (extractFromChrome) ============ -/

/-- The module state guarding extraction: the refreshInProgress flag and a
count of probe (extractFromChromeInternal) invocations so far. -/
structure LockSt where
  lock : Bool
  probes : Nat
deriving DecidableEq

/-- extractFromChrome from token-store.js lines 176-189 run to completion:
if refreshInProgress is set, return null immediately without probing;
otherwise set the flag, invoke the probe (whose outcome, success or
failure, is the probe argument), and clear the flag in the finally path. -/
def extractFromChrome (probe : Option TokenPair) (s : LockSt) : Option TokenPair × LockSt :=
  if s.lock then (none, s)
  else (probe, ⟨false, s.probes + 1⟩)

/-- The entry half of extractFromChrome, up to the suspension point while
the probe is in flight: returns whether this caller entered (acquired the
flag and invoked the probe) together with the state at that point. -/
def beginExtract (s : LockSt) : Bool × LockSt :=
  if s.lock then (false, s) else (true, ⟨true, s.probes + 1⟩)

/-- The finally half: a caller that entered clears the flag regardless of
the probe outcome; a caller that did not enter leaves the state alone. -/
def endExtract (entered : Bool) (s : LockSt) : LockSt :=
  if entered then ⟨false, s.probes⟩ else s

/- ============ C2, C3, C4: resilient API client (slackAPI) ============ -/

/-- A transport-level failure thrown by fetch: its code property, the code
of its cause, and its message string. -/
structure NetError where
  code : Option String
  causeCode : Option String
  message : String
deriving DecidableEq

/-- Whether the pattern list is a prefix of the list. -/
def listHasPre : List Char → List Char → Bool
  | [], _ => true
  | _ :: _, [] => false
  | p :: ps, a :: t => p == a && listHasPre ps t

/-- Whether the pattern occurs contiguously inside the list. -/
def listHasInfix (pat : List Char) : List Char → Bool
  | [] => pat.isEmpty
  | a :: t => listHasPre pat (a :: t) || listHasInfix pat t

/-- JavaScript String.prototype.includes. -/
def strIncludes (s pat : String) : Bool := listHasInfix pat.toList s.toList

/-- RETRYABLE_NETWORK_ERRORS from the client (handlers.js lines 1026-1029). -/
def RETRYABLE_NETWORK_ERRORS : List String :=
  ["ECONNRESET", "ETIMEDOUT", "ENOTFOUND", "EAI_AGAIN",
   "ECONNREFUSED", "EPIPE", "UND_ERR_CONNECT_TIMEOUT"]

/-- The isRetryable classification in slackAPI: some listed code occurs in
the message, or equals the error code, or equals the cause code. -/
def isTransientNet (err : NetError) : Bool :=
  RETRYABLE_NETWORK_ERRORS.any (fun e =>
    strIncludes err.message e || err.code == some e || err.causeCode == some e)

/-- The complete retry decision of the network-error path:
retryCount < maxRetries, and isRetryable or the message contains fetch. -/
def netRetryCond (err : NetError) (retryCount maxRetries : Nat) : Bool :=
  decide (retryCount < maxRetries)
    && (isTransientNet err || strIncludes err.message "fetch")

/-- Network-error backoff: min(1000 * 2 ^ retryCount, 10000). -/
def netBackoff (retryCount : Nat) : Nat := Nat.min (1000 * 2 ^ retryCount) 10000

/-- Rate-limit backoff: min(retryAfter * 1000, 30000) * (retryCount + 1),
with retryAfter the parsed Retry-After header in seconds (default 5). -/
def rlBackoff (retryAfter retryCount : Nat) : Nat :=
  Nat.min (retryAfter * 1000) 30000 * (retryCount + 1)

/-- One scripted outcome of issuing the fetch: a transport failure, a
response with ok true (carrying an abstract payload id), or a response
with ok false carrying its error string and parsed Retry-After value. -/
inductive Outcome where
  | netErr (e : NetError)
  | ok (v : Nat)
  | apiErr (code : String) (retryAfter : Nat)
deriving DecidableEq

/-- What the caller of slackAPI observes: the resolved data or the thrown
error message. -/
inductive APIResult where
  | success (v : Nat)
  | failure (msg : String)
deriving DecidableEq

/-- Trace of one logical slackAPI call: the observed result, the list of
backoff waits performed (each already including its jitter), and the pairs
persisted via saveTokens along the way. -/
structure CallResult where
  result : APIResult
  waits : List Nat
  saved : List TokenPair
deriving DecidableEq

/-- The error thrown when auth renewal fails (handlers.js line 1236). -/
def authFailMsg (code : String) : String :=
  code ++ " - Tokens expired. Open Slack in Chrome and use slack_refresh_tokens."

/-- The error thrown when no credentials resolve (handlers.js line 1156). -/
def noCredsMsg : String :=
  "No credentials available. Run refresh-tokens.sh or open Slack in Chrome."

/-- slackAPI from handlers.js lines 1151-1242, scripted: the store argument
is the pair the token store currently resolves (updated to the extracted
pair after an auth renewal persists it), chrome is the deterministic
outcome extraction would produce, the script lists the successive fetch
outcomes, and js the successive jitter draws. Mirrors the source order:
credential check, network-error retry, rate-limit retry, auth renewal with
retryOnAuthFail forced false on the single retry, and verbatim surfacing
of any other error. -/
def slackAPIModel (chrome : Option TokenPair) :
    Option TokenPair → List Outcome → List Nat → Bool → Nat → Nat → CallResult
  | none, _, _, _, _, _ => ⟨.failure noCredsMsg, [], []⟩
  | some _, [], _, _, _, _ => ⟨.failure "no response scripted", [], []⟩
  | some _, .ok v :: _, _, _, _, _ => ⟨.success v, [], []⟩
  | some cr, .netErr e :: rest, js, roaf, rc, m =>
    if netRetryCond e rc m then
      let sub := slackAPIModel chrome (some cr) rest js.tail roaf (rc + 1) m
      ⟨sub.result, (netBackoff rc + js.headD 0) :: sub.waits, sub.saved⟩
    else ⟨.failure e.message, [], []⟩
  | some cr, .apiErr code ra :: rest, js, roaf, rc, m =>
    if code = "ratelimited" ∧ rc < m then
      let sub := slackAPIModel chrome (some cr) rest js.tail roaf (rc + 1) m
      ⟨sub.result, (rlBackoff ra rc + js.headD 0) :: sub.waits, sub.saved⟩
    else if (code = "invalid_auth" ∨ code = "token_expired") ∧ roaf = true then
      match chrome with
      | some p =>
        let sub := slackAPIModel chrome (some p) rest js false rc m
        ⟨sub.result, sub.waits, p :: sub.saved⟩
      | none => ⟨.failure (authFailMsg code), [], []⟩
    else ⟨.failure code, [], []⟩

/- ============ C7, C8: bounded LRU cache with TTL (LRUCache) ============ -/

/-- One stored cache entry: the value and its absolute expiry time. -/
structure CEntry (V : Type) where
  value : V
  expiry : Nat
deriving DecidableEq

/-- Map.prototype.get on the insertion-ordered map. -/
def cacheLookup {K V : Type} [DecidableEq K] (k : K) :
    List (K × CEntry V) → Option (CEntry V)
  | [] => none
  | (k2, e) :: t => if k2 = k then some e else cacheLookup k t

/-- Map.prototype.delete on the insertion-ordered map. -/
def cacheDelete {K V : Type} [DecidableEq K] (k : K) :
    List (K × CEntry V) → List (K × CEntry V)
  | [] => []
  | (k2, e) :: t => if k2 = k then cacheDelete k t else (k2, e) :: cacheDelete k t

/-- LRUCache.get (handlers.js lines 1050-1061): absent means null; an
entry past its expiry is deleted and reported null; a hit is re-inserted
at the most-recently-used end and its value returned. -/
def lruGet {K V : Type} [DecidableEq K] (now : Nat) (k : K) (m : List (K × CEntry V)) :
    Option V × List (K × CEntry V) :=
  match cacheLookup k m with
  | none => (none, m)
  | some e =>
    if e.expiry < now then (none, cacheDelete k m)
    else (some e.value, cacheDelete k m ++ [(k, e)])

/-- LRUCache.set (handlers.js lines 1063-1075): delete the key, evict the
first (least recently used) entry when at capacity, then insert at the
most-recently-used end with expiry now + ttl. -/
def lruSet {K V : Type} [DecidableEq K] (now maxSize ttl : Nat) (k : K) (v : V)
    (m : List (K × CEntry V)) : List (K × CEntry V) :=
  let m1 := cacheDelete k m
  let m2 := if maxSize ≤ m1.length then m1.tail else m1
  m2 ++ [(k, ⟨v, now + ttl⟩)]

/-- A cache operation with the wall-clock time at which it runs. -/
inductive CacheOp (K V : Type) where
  | setOp (now : Nat) (k : K) (v : V)
  | getOp (now : Nat) (k : K)

/-- State reached after one operation. -/
def applyOp {K V : Type} [DecidableEq K] (maxSize ttl : Nat) (m : List (K × CEntry V)) :
    CacheOp K V → List (K × CEntry V)
  | .setOp now k v => lruSet now maxSize ttl k v m
  | .getOp now k => (lruGet now k m).2

/-- State reached after a sequence of operations. -/
def runOps {K V : Type} [DecidableEq K] (maxSize ttl : Nat) (ops : List (CacheOp K V))
    (m : List (K × CEntry V)) : List (K × CEntry V) :=
  ops.foldl (applyOp maxSize ttl) m

/- ============ C9: token health monitor (checkTokenHealth) ============ -/

/-- TOKEN_WARNING_AGE from handlers.js line 1020 (6 hours in ms). -/
def TOKEN_WARNING_AGE : Int := 21600000

/-- TOKEN_CRITICAL_AGE from handlers.js line 1021 (10 hours in ms). -/
def TOKEN_CRITICAL_AGE : Int := 36000000

/-- REFRESH_COOLDOWN from handlers.js line 1022 (1 hour in ms). -/
def REFRESH_COOLDOWN : Int := 3600000

/-- The credentials as checkTokenHealth sees them: updated_at already
converted to epoch milliseconds, or none when the source supplied no
timestamp (in which case the age is Infinity). -/
structure HealthCreds where
  updatedAt : Option Int
deriving DecidableEq

/-- The fields of the object checkTokenHealth returns that the claims
speak about; ageHoursX10 is age_hours times ten so the half-hour rounding
stays in integers, none standing for an Infinity age. -/
structure HealthReport where
  healthy : Bool
  reason : Option String
  refreshed : Bool
  ageHoursX10 : Option Int
  warning : Bool
  critical : Bool
deriving DecidableEq

/-- Token age in ms, none meaning Infinity (no updatedAt). -/
def tokenAgeOf (now : Int) : Option Int → Option Int
  | none => none
  | some t => some (now - t)

/-- Age comparison where none is Infinity: age > bound. -/
def ageGT : Option Int → Int → Bool
  | none, _ => true
  | some a, b => decide (a > b)

/-- Age comparison where none is Infinity: age < bound. -/
def ageLT : Option Int → Int → Bool
  | none, _ => false
  | some a, b => decide (a < b)

/-- Math.round(tokenAge / 3600000 * 10) of the source, scaled: ten times
the age in hours rounded to one decimal, Infinity mapped to none. -/
def jsAgeHoursX10 : Option Int → Option Int
  | none => none
  | some a => some (Int.fdiv (a + 180000) 360000)

/-- checkTokenHealth from handlers.js lines 1098-1145: no credentials
reports no_tokens; past the warning age and past the refresh cooldown it
records the attempt time and probes Chrome, reporting healthy with age 0
on success; otherwise it reports healthy iff the age is below the critical
age, with the warning and critical flags from the two thresholds. Returns
the report, the new lastRefreshAttempt, and whether the probe ran. -/
def checkTokenHealth (now : Int) (creds : Option HealthCreds) (lastRefreshAttempt : Int)
    (chrome : Option TokenPair) : HealthReport × Int × Bool :=
  match creds with
  | none => (⟨false, some "no_tokens", false, none, false, false⟩, lastRefreshAttempt, false)
  | some c =>
    let age := tokenAgeOf now c.updatedAt
    if ageGT age TOKEN_WARNING_AGE && decide (now - lastRefreshAttempt > REFRESH_COOLDOWN) then
      match chrome with
      | some _ => (⟨true, none, true, some 0, false, false⟩, now, true)
      | none =>
        (⟨ageLT age TOKEN_CRITICAL_AGE, none, false, jsAgeHoursX10 age,
          ageGT age TOKEN_WARNING_AGE, ageGT age TOKEN_CRITICAL_AGE⟩, now, true)
    else
      (⟨ageLT age TOKEN_CRITICAL_AGE, none, false, jsAgeHoursX10 age,
        ageGT age TOKEN_WARNING_AGE, ageGT age TOKEN_CRITICAL_AGE⟩, lastRefreshAttempt, false)

/- ============ C10: export filename sanitization (handleGetFullConversation) ============ -/

/-- Path separator characters the sanitizer regex classes recognise. -/
def isSep (c : Char) : Bool := c == '/' || c == '\\'

/-- Line terminators, which the dot of a JavaScript regex never matches. -/
def isLineTerm (c : Char) : Bool :=
  c == '\n' || c == '\r' || c == '\u2028' || c == '\u2029'

/-- replace of the anchored greedy pattern dot-star separator: the match,
when it exists, is the longest prefix of the first line that ends in a
separator, because the dot cannot cross a line terminator; that prefix is
removed. -/
def stripPathComponents (l : List Char) : List Char :=
  let fl := l.takeWhile (fun c => !isLineTerm c)
  if fl.any isSep then
    (fl.reverse.takeWhile (fun c => !isSep c)).reverse ++ l.drop fl.length
  else l

/-- Global replace of two consecutive dots by nothing: left to right,
non-overlapping, the replacement never rescanned. -/
def stripDotDot : List Char → List Char
  | '.' :: '.' :: rest => stripDotDot rest
  | c :: rest => c :: stripDotDot rest
  | [] => []

/-- The invalid-filename character class of the third replace. -/
def INVALID_FILENAME_CHARS : List Char := ['<', '>', ':', '\"', '|', '?', '*']

/-- Global removal of the invalid characters. -/
def stripInvalidChars (l : List Char) : List Char :=
  l.filter (fun c => !(INVALID_FILENAME_CHARS.contains c))

/-- The sanitizer of handleGetFullConversation (handlers.js lines 415-419):
strip path components, then two-dot sequences, then invalid characters,
falling back to export.json when the result is empty. -/
def sanitizeExportName (s : String) : String :=
  let l := stripInvalidChars (stripDotDot (stripPathComponents s.toList))
  if l.isEmpty then "export.json" else String.mk l

/-- Split a POSIX path string into its slash-separated components. -/
def splitPathAux : List Char → List Char → List (List Char)
  | cur, [] => [cur.reverse]
  | cur, c :: t => if c == '/' then cur.reverse :: splitPathAux [] t else splitPathAux (c :: cur) t

/-- Components of a name as path.join would see them. -/
def splitPath (l : List Char) : List String :=
  (splitPathAux [] l).map String.mk

/-- One step of path normalization: empty components and single dots
vanish, a double dot pops the previous component, anything else descends. -/
def normStep (acc : List String) (c : String) : List String :=
  if c = "" then acc
  else if c = "." then acc
  else if c = ".." then acc.dropLast
  else acc ++ [c]

/-- path.join(base, name) on POSIX, as normalized components: the export
directory components followed by the name's components, normalized. -/
def joinedExportPath (base : List String) (name : String) : List String :=
  (splitPath name.toList).foldl normStep base

/-- The components of the path handleGetFullConversation writes to for a
given output_file argument: the export directory joined with the sanitized
name. -/
def outputPathComponents (base : List String) (outputFile : String) : List String :=
  joinedExportPath base (sanitizeExportName outputFile)

end SlackMCP

namespace SlackMCP

/- ============ Theorems ============ -/

/-- Helper: deleting a path removes it. -/
theorem fsLookup_fsDelete_self (k : String) (fs : FS) : fsLookup k (fsDelete k fs) = none := by
  induction fs with
  | nil => rfl
  | cons p t ih =>
    obtain ⟨k2, v⟩ := p
    by_cases hk : k2 = k
    · simp [fsDelete, hk, ih]
    · simp [fsDelete, hk, fsLookup, ih]

/-- Helper: deleting one path leaves others unchanged. -/
theorem fsLookup_fsDelete_other (k k2 : String) (hne : k2 ≠ k) (fs : FS) :
    fsLookup k (fsDelete k2 fs) = fsLookup k fs := by
  induction fs with
  | nil => rfl
  | cons p t ih =>
    obtain ⟨k3, v⟩ := p
    by_cases hk : k3 = k2
    · subst hk
      simp [fsDelete, fsLookup, hne, ih]
    · simp [fsDelete, hk, fsLookup, ih]

/-- Helper: a written path holds the written content. -/
theorem fsLookup_fsSet_self (k v : String) (fs : FS) : fsLookup k (fsSet k v fs) = some v := by
  simp [fsSet, fsLookup]

/-- Helper: writing one path leaves others unchanged. -/
theorem fsLookup_fsSet_other (k k2 v : String) (hne : k2 ≠ k) (fs : FS) :
    fsLookup k (fsSet k2 v fs) = fsLookup k fs := by
  simp [fsSet, fsLookup, hne, fsLookup_fsDelete_other k k2 hne]

/-- Helper: the temporary path is never the target path. -/
theorem tempName_ne (filePath pid : String) : tempName filePath pid ≠ filePath := by
  intro h
  have hl := congrArg String.length h
  simp only [tempName, String.length_append] at hl
  have h1 : ".".length = 1 := rfl
  have h4 : ".tmp".length = 4 := rfl
  rw [h1, h4] at hl
  omega

/-- C5: atomicWriteSync writes content to a sibling temporary path and
atomically renames it over the target; on a failure in either phase the
temporary file is deleted and the error propagated, the target is left in
its prior state, and after success or failure no temporary artifact
remains. -/
theorem atomicWriteSync_atomicity (fs : FS) (filePath pid content junk : String) :
    ((atomicWriteSync fs filePath pid content junk .noFail).1 = none
      ∧ fsLookup filePath (atomicWriteSync fs filePath pid content junk .noFail).2 = some content
      ∧ fsLookup (tempName filePath pid)
          (atomicWriteSync fs filePath pid content junk .noFail).2 = none)
    ∧ ((atomicWriteSync fs filePath pid content junk .duringWrite).1.isSome = true
      ∧ fsLookup filePath (atomicWriteSync fs filePath pid content junk .duringWrite).2
          = fsLookup filePath fs
      ∧ fsLookup (tempName filePath pid)
          (atomicWriteSync fs filePath pid content junk .duringWrite).2 = none)
    ∧ ((atomicWriteSync fs filePath pid content junk .duringRename).1.isSome = true
      ∧ fsLookup filePath (atomicWriteSync fs filePath pid content junk .duringRename).2
          = fsLookup filePath fs
      ∧ fsLookup (tempName filePath pid)
          (atomicWriteSync fs filePath pid content junk .duringRename).2 = none) := by
  have hne : tempName filePath pid ≠ filePath := tempName_ne filePath pid
  have hne2 : filePath ≠ tempName filePath pid := fun h => hne h.symm
  refine ⟨⟨rfl, ?_, ?_⟩, ⟨rfl, ?_, ?_⟩, ⟨rfl, ?_, ?_⟩⟩
  · simp [atomicWriteSync, fsRename, fsLookup_fsSet_self]
  · simp [atomicWriteSync, fsRename, fsLookup_fsSet_self,
      fsLookup_fsSet_other _ _ _ hne2, fsLookup_fsDelete_self]
  · simp [atomicWriteSync, fsLookup_fsDelete_other _ _ hne, fsLookup_fsSet_other _ _ _ hne]
  · simp [atomicWriteSync, fsLookup_fsDelete_self]
  · simp [atomicWriteSync, fsLookup_fsDelete_other _ _ hne, fsLookup_fsSet_other _ _ _ hne]
  · simp [atomicWriteSync, fsLookup_fsDelete_self]

/-- C1: loadTokens implements exactly the spec's resolution chain: with
forceRefresh false it returns the pair from the highest-priority usable
source in the order environment, file, keychain, extraction; with
forceRefresh true it skips sources 1-3 and goes straight to extraction.
Determinism holds because both sides are functions of the source state. -/
theorem loadTokens_priority_order (env : SourceEnv) (forceRefresh : Bool) :
    loadTokens env forceRefresh = specResolve env forceRefresh := by
  cases forceRefresh with
  | true => simp [loadTokens, specResolve, specExtractionSource]
  | false =>
    cases h1 : truthyS env.envToken && truthyS env.envCookie with
    | true =>
      simp [loadTokens, specResolve, specEnvSource, h1, firstUsable]
    | false =>
      cases h2 : fileUsable env.file with
      | true =>
        simp [loadTokens, specResolve, specEnvSource, specFileSource, h1, h2, firstUsable]
      | false =>
        cases h3 : truthyS env.keychainToken && truthyS env.keychainCookie with
        | true =>
          simp [loadTokens, specResolve, specEnvSource, specFileSource, specKeychainSource,
            h1, h2, h3, firstUsable]
        | false =>
          cases hc : env.chrome with
          | some p =>
            simp [loadTokens, specResolve, specEnvSource, specFileSource, specKeychainSource,
              specExtractionSource, h1, h2, h3, hc, firstUsable]
          | none =>
            simp [loadTokens, specResolve, specEnvSource, specFileSource, specKeychainSource,
              specExtractionSource, h1, h2, h3, hc, firstUsable]

/-- Helper: the run-to-completion extractFromChrome is the composition of
its entry half, the probe outcome, and its finally half. -/
theorem extractFromChrome_begin_end (probe : Option TokenPair) (s : LockSt) :
    extractFromChrome probe s =
      ((if (beginExtract s).1 then probe else none),
        endExtract (beginExtract s).1 (beginExtract s).2) := by
  by_cases h : s.lock
  · simp [extractFromChrome, beginExtract, endExtract, h]
  · simp [extractFromChrome, beginExtract, endExtract, h]

/-- C6: at most one extraction is in flight: a call arriving while the
lock is held returns null immediately without invoking the probe and
without waiting; a call finding the lock free probes exactly once and the
lock is released on the finally path whatever the probe outcome; and in
the overlapped schedule where a second caller arrives while the first
holds the lock, the two calls invoke the probe exactly once in total and
the lock ends released. -/
theorem renewal_lock_single_flight (n : Nat) (probe probe2 : Option TokenPair) :
    extractFromChrome probe ⟨true, n⟩ = (none, ⟨true, n⟩)
    ∧ extractFromChrome probe ⟨false, n⟩ = (probe, ⟨false, n + 1⟩)
    ∧ beginExtract ⟨false, n⟩ = (true, ⟨true, n + 1⟩)
    ∧ extractFromChrome probe2 ⟨true, n + 1⟩ = (none, ⟨true, n + 1⟩)
    ∧ endExtract true ⟨true, n + 1⟩ = ⟨false, n + 1⟩ := by
  refine ⟨?_, ?_, ?_, ?_, ?_⟩ <;> simp [extractFromChrome, beginExtract, endExtract]

/-- C2 counterexample: the code does not retry only on errors classified
transient by code or class. An error with the non-retryable code EACCES
whose message is fetch failed is retried on attempt 0 of 3, although the
transient classification rejects it: the message-contains-fetch fallback
is a catch-all for fetch transport failures. -/
theorem network_retry_fetch_catch_all :
    netRetryCond ⟨some "EACCES", none, "fetch failed"⟩ 0 3 = true
    ∧ isTransientNet ⟨some "EACCES", none, "fetch failed"⟩ = false := by
  constructor
  · decide
  · decide

/-- C2 amended: on a transport failure slackAPI retries exactly when the
attempt count is below maxAttempts and the error is either classified
transient by code, cause code, or code-in-message, or its message contains
fetch; a retry waits min(1000 * 2 ^ attempt, 10000) plus the jitter draw
and recurses with attempt + 1; otherwise the transport error surfaces. -/
theorem slackAPI_network_retry_amended (chrome : Option TokenPair) (cr : TokenPair)
    (e : NetError) (rest : List Outcome) (js : List Nat) (roaf : Bool) (rc m : Nat) :
    netRetryCond e rc m
      = (decide (rc < m) && (isTransientNet e || strIncludes e.message "fetch"))
    ∧ (netRetryCond e rc m = true →
        slackAPIModel chrome (some cr) (Outcome.netErr e :: rest) js roaf rc m =
          ⟨(slackAPIModel chrome (some cr) rest js.tail roaf (rc + 1) m).result,
            (Nat.min (1000 * 2 ^ rc) 10000 + js.headD 0)
              :: (slackAPIModel chrome (some cr) rest js.tail roaf (rc + 1) m).waits,
            (slackAPIModel chrome (some cr) rest js.tail roaf (rc + 1) m).saved⟩)
    ∧ (netRetryCond e rc m = false →
        slackAPIModel chrome (some cr) (Outcome.netErr e :: rest) js roaf rc m
          = ⟨APIResult.failure e.message, [], []⟩) := by
  refine ⟨rfl, ?_, ?_⟩ <;> intro h <;> simp [slackAPIModel, h, netBackoff]

/-- C2 witness: a concrete ECONNRESET failure on attempt 0 of 3 retries
with a 1000 ms backoff plus the 250 ms jitter draw and then succeeds. -/
theorem slackAPI_network_retry_amended_witness :
    netRetryCond ⟨some "ECONNRESET", none, "read ECONNRESET"⟩ 0 3 = true
    ∧ slackAPIModel none (some ⟨"t", "c"⟩)
        [Outcome.netErr ⟨some "ECONNRESET", none, "read ECONNRESET"⟩, Outcome.ok 7]
        [250] true 0 3 =
      ⟨(slackAPIModel none (some ⟨"t", "c"⟩) [Outcome.ok 7] [(250 : Nat)].tail true 1 3).result,
        (Nat.min (1000 * 2 ^ 0) 10000 + [(250 : Nat)].headD 0)
          :: (slackAPIModel none (some ⟨"t", "c"⟩) [Outcome.ok 7] [(250 : Nat)].tail true 1 3).waits,
        (slackAPIModel none (some ⟨"t", "c"⟩) [Outcome.ok 7] [(250 : Nat)].tail true 1 3).saved⟩ :=
  ⟨by decide,
    (slackAPI_network_retry_amended none ⟨"t", "c"⟩ ⟨some "ECONNRESET", none, "read ECONNRESET"⟩
      [Outcome.ok 7] [250] true 0 3).2.1 (by decide)⟩

/-- C3: on an invalid_auth or token_expired response with retryOnAuthFail
set, slackAPI renews through Chrome extraction; when extraction yields a
pair it is persisted and the call retried exactly once with
retryOnAuthFail forced false, so the caller of a retry that succeeds
observes only the success; a second auth failure on the retry surfaces
without another renewal; and when extraction fails an error carrying the
remediation guidance surfaces. -/
theorem slackAPI_auth_renewal (cr p : TokenPair) (code code2 : String)
    (ra ra2 v : Nat) (rest rest2 : List Outcome) (js : List Nat) (rc m : Nat)
    (hcode : code = "invalid_auth" ∨ code = "token_expired")
    (hcode2 : code2 = "invalid_auth" ∨ code2 = "token_expired") :
    slackAPIModel (some p) (some cr) (Outcome.apiErr code ra :: Outcome.ok v :: rest) js true rc m
      = ⟨APIResult.success v, [], [p]⟩
    ∧ slackAPIModel (some p) (some cr)
        (Outcome.apiErr code ra :: Outcome.apiErr code2 ra2 :: rest2) js true rc m
      = ⟨APIResult.failure code2, [], [p]⟩
    ∧ slackAPIModel none (some cr) (Outcome.apiErr code ra :: rest) js true rc m
      = ⟨APIResult.failure (authFailMsg code), [], []⟩ := by
  have hne : code ≠ "ratelimited" := by rcases hcode with h | h <;> subst h <;> decide
  have hne2 : code2 ≠ "ratelimited" := by rcases hcode2 with h | h <;> subst h <;> decide
  have hnot : ¬(code = "ratelimited" ∧ rc < m) := fun hc => hne hc.1
  have hnot2 : ¬(code2 = "ratelimited" ∧ rc < m) := fun hc => hne2 hc.1
  refine ⟨?_, ?_, ?_⟩
  · simp only [slackAPIModel, if_neg hnot]
    exact if_pos (And.intro hcode trivial)
  · have hfalse : ¬((code2 = "invalid_auth" ∨ code2 = "token_expired") ∧ false = true) :=
      fun hc => by simpa using hc.2
    simp only [slackAPIModel, if_neg hnot, if_neg hnot2, if_neg hfalse]
    exact if_pos (And.intro hcode trivial)
  · simp only [slackAPIModel, if_neg hnot]
    exact if_pos (And.intro hcode trivial)

/-- C3 witness: a concrete invalid_auth response followed by success, a
token_expired on the single retry, and a failing renewal, on attempt 0 of
3. -/
theorem slackAPI_auth_renewal_witness :
    slackAPIModel (some ⟨"nt", "nc"⟩) (some ⟨"t", "c"⟩)
        [Outcome.apiErr "invalid_auth" 5, Outcome.ok 9] [] true 0 3
      = ⟨APIResult.success 9, [], [⟨"nt", "nc"⟩]⟩
    ∧ slackAPIModel (some ⟨"nt", "nc"⟩) (some ⟨"t", "c"⟩)
        [Outcome.apiErr "invalid_auth" 5, Outcome.apiErr "token_expired" 5] [] true 0 3
      = ⟨APIResult.failure "token_expired", [], [⟨"nt", "nc"⟩]⟩
    ∧ slackAPIModel none (some ⟨"t", "c"⟩) [Outcome.apiErr "invalid_auth" 5] [] true 0 3
      = ⟨APIResult.failure (authFailMsg "invalid_auth"), [], []⟩ :=
  slackAPI_auth_renewal ⟨"t", "c"⟩ ⟨"nt", "nc"⟩ "invalid_auth" "token_expired" 5 5 9 [] [] [] 0 3
    (Or.inl rfl) (Or.inr rfl)

/-- C4: three consecutive rate-limit responses followed by a success, at
the default bound of 3 attempts, produce the successful result after three
waits whose total is at least the sum of the three computed backoff
windows min(retryAfter * 1000, 30000) * (attempt + 1); a fourth rate-limit
response instead surfaces the rate-limit error. -/
theorem slackAPI_rate_limit_backoff (chrome : Option TokenPair) (cr : TokenPair)
    (r0 r1 r2 r3 v : Nat) (js : List Nat) (roaf : Bool) :
    (slackAPIModel chrome (some cr)
        [Outcome.apiErr "ratelimited" r0, Outcome.apiErr "ratelimited" r1,
          Outcome.apiErr "ratelimited" r2, Outcome.ok v] js roaf 0 3).result
      = APIResult.success v
    ∧ (slackAPIModel chrome (some cr)
        [Outcome.apiErr "ratelimited" r0, Outcome.apiErr "ratelimited" r1,
          Outcome.apiErr "ratelimited" r2, Outcome.ok v] js roaf 0 3).waits.length = 3
    ∧ (slackAPIModel chrome (some cr)
        [Outcome.apiErr "ratelimited" r0, Outcome.apiErr "ratelimited" r1,
          Outcome.apiErr "ratelimited" r2, Outcome.ok v] js roaf 0 3).waits.sum
      ≥ Nat.min (r0 * 1000) 30000 * 1 + Nat.min (r1 * 1000) 30000 * 2
          + Nat.min (r2 * 1000) 30000 * 3
    ∧ (slackAPIModel chrome (some cr)
        [Outcome.apiErr "ratelimited" r0, Outcome.apiErr "ratelimited" r1,
          Outcome.apiErr "ratelimited" r2, Outcome.apiErr "ratelimited" r3] js roaf 0 3).result
      = APIResult.failure "ratelimited" := by
  refine ⟨?_, ?_, ?_, ?_⟩
  · simp [slackAPIModel, rlBackoff]
  · simp [slackAPIModel, rlBackoff]
  · simp [slackAPIModel, rlBackoff]
    omega
  · simp [slackAPIModel, rlBackoff]

/-- Helper: deletion never grows the map. -/
theorem cacheDelete_length_le {K V : Type} [DecidableEq K] (k : K) (m : List (K × CEntry V)) :
    (cacheDelete k m).length ≤ m.length := by
  induction m with
  | nil => simp [cacheDelete]
  | cons p t ih =>
    obtain ⟨k2, e⟩ := p
    by_cases hk : k2 = k
    · simp only [cacheDelete, if_pos hk]
      exact ih.trans (Nat.le_succ _)
    · simp only [cacheDelete, if_neg hk, List.length_cons]
      omega

/-- Helper: deleting a present key strictly shrinks the map. -/
theorem cacheDelete_length_lt {K V : Type} [DecidableEq K] (k : K) (m : List (K × CEntry V))
    (e : CEntry V) (h : cacheLookup k m = some e) :
    (cacheDelete k m).length < m.length := by
  induction m with
  | nil => simp [cacheLookup] at h
  | cons p t ih =>
    obtain ⟨k2, e2⟩ := p
    by_cases hk : k2 = k
    · simp only [cacheDelete, if_pos hk, List.length_cons]
      exact Nat.lt_succ_of_le (cacheDelete_length_le k t)
    · simp only [cacheLookup, if_neg hk] at h
      simp only [cacheDelete, if_neg hk, List.length_cons]
      exact Nat.succ_lt_succ (ih h)

/-- Helper: a get never grows the map. -/
theorem lruGet_length_le {K V : Type} [DecidableEq K] (now : Nat) (k : K)
    (m : List (K × CEntry V)) : (lruGet now k m).2.length ≤ m.length := by
  unfold lruGet
  cases h : cacheLookup k m with
  | none => simp
  | some e =>
    by_cases hx : e.expiry < now
    · simp only [if_pos hx]
      exact cacheDelete_length_le k m
    · simp only [if_neg hx, List.length_append, List.length_cons, List.length_nil]
      have := cacheDelete_length_lt k m e h
      omega

/-- Helper: a set keeps the map within a positive capacity. -/
theorem lruSet_length_le {K V : Type} [DecidableEq K] (now maxSize ttl : Nat) (k : K) (v : V)
    (m : List (K × CEntry V)) (hcap : 1 ≤ maxSize) (hm : m.length ≤ maxSize) :
    (lruSet now maxSize ttl k v m).length ≤ maxSize := by
  unfold lruSet
  have h1 : (cacheDelete k m).length ≤ m.length := cacheDelete_length_le k m
  by_cases h2 : maxSize ≤ (cacheDelete k m).length
  · have hq : (cacheDelete k m).length = maxSize := le_antisymm (h1.trans hm) h2
    simp only [if_pos h2, List.length_append, List.length_tail, List.length_cons,
      List.length_nil]
    omega
  · simp only [if_neg h2, List.length_append, List.length_cons, List.length_nil]
    omega

/-- Helper: the capacity bound is preserved by any operation sequence. -/
theorem runOps_length_le {K V : Type} [DecidableEq K] (maxSize ttl : Nat)
    (hcap : 1 ≤ maxSize) (ops : List (CacheOp K V)) (m : List (K × CEntry V))
    (hm : m.length ≤ maxSize) : (runOps maxSize ttl ops m).length ≤ maxSize := by
  induction ops generalizing m with
  | nil => exact hm
  | cons op t ih =>
    have hstep : (applyOp maxSize ttl m op).length ≤ maxSize := by
      cases op with
      | setOp now k v => exact lruSet_length_le now maxSize ttl k v m hcap hm
      | getOp now k => exact (lruGet_length_le now k m).trans hm
    exact ih (applyOp maxSize ttl m op) hstep

/-- C7: for any positive configured capacity, after every sequence of set
and get operations starting from the empty cache the size never exceeds
the capacity; and a get on an entry whose expiry has passed returns null
and evicts it on access. -/
theorem lru_capacity_and_ttl (maxSize ttl : Nat) (hcap : 1 ≤ maxSize)
    (ops : List (CacheOp String String)) (m : List (String × CEntry String))
    (k : String) (e : CEntry String) (now : Nat)
    (hk : cacheLookup k m = some e) (hexp : e.expiry < now) :
    (runOps maxSize ttl ops []).length ≤ maxSize
    ∧ lruGet now k m = (none, cacheDelete k m) := by
  constructor
  · exact runOps_length_le maxSize ttl hcap ops [] (by simp)
  · unfold lruGet
    rw [hk]
    simp [hexp]

/-- C7 witness: capacity 2 holds over three inserts and a read, and a
lookup at time 20 of an entry expired at time 5 misses and evicts it. -/
theorem lru_capacity_and_ttl_witness :
    (runOps 2 10
        [CacheOp.setOp 0 "a" "1", CacheOp.setOp 0 "b" "2", CacheOp.setOp 0 "c" "3",
          CacheOp.getOp 1 "a"] ([] : List (String × CEntry String))).length ≤ 2
    ∧ lruGet 20 "a" [("a", (⟨"1", 5⟩ : CEntry String))]
        = (none, cacheDelete "a" [("a", (⟨"1", 5⟩ : CEntry String))]) :=
  lru_capacity_and_ttl 2 10 (by decide)
    [CacheOp.setOp 0 "a" "1", CacheOp.setOp 0 "b" "2", CacheOp.setOp 0 "c" "3",
      CacheOp.getOp 1 "a"]
    [("a", ⟨"1", 5⟩)] "a" ⟨"1", 5⟩ 20 (by decide) (by decide)

/-- C8: with capacity 2, inserting x, y, z in order evicts x, the least
recently used key: a subsequent get of x returns null while gets of y and
z return their stored values; and a get hit promotes its entry, so after
inserting x and y, reading x, and inserting z, it is y that is evicted
while x survives. -/
theorem lru_eviction_order_scenario :
    (lruGet 1 "x"
        (lruSet 0 2 1000 "z" "vz" (lruSet 0 2 1000 "y" "vy"
          (lruSet 0 2 1000 "x" "vx" ([] : List (String × CEntry String)))))).1 = none
    ∧ (lruGet 1 "y"
        (lruGet 1 "x"
          (lruSet 0 2 1000 "z" "vz" (lruSet 0 2 1000 "y" "vy"
            (lruSet 0 2 1000 "x" "vx" ([] : List (String × CEntry String)))))).2).1 = some "vy"
    ∧ (lruGet 1 "z"
        (lruGet 1 "y"
          (lruGet 1 "x"
            (lruSet 0 2 1000 "z" "vz" (lruSet 0 2 1000 "y" "vy"
              (lruSet 0 2 1000 "x" "vx"
                ([] : List (String × CEntry String)))))).2).2).1 = some "vz"
    ∧ (lruGet 2 "y"
        (lruSet 1 2 1000 "z" "vz"
          (lruGet 1 "x"
            (lruSet 0 2 1000 "y" "vy"
              (lruSet 0 2 1000 "x" "vx" ([] : List (String × CEntry String))))).2)).1 = none
    ∧ (lruGet 2 "x"
        (lruSet 1 2 1000 "z" "vz"
          (lruGet 1 "x"
            (lruSet 0 2 1000 "y" "vy"
              (lruSet 0 2 1000 "x" "vx"
                ([] : List (String × CEntry String))))).2)).1 = some "vx" := by
  refine ⟨?_, ?_, ?_, ?_, ?_⟩ <;> decide

/-- C9: for stored credentials 11 hours old against the 6 hour warning and
10 hour critical thresholds, the health check attempts renewal exactly
when the time since the last renewal attempt exceeds the cooldown; a
failed renewal reports critical and not healthy with age 11.0 hours, a
successful renewal immediately reports healthy, refreshed, age 0, and
when the cooldown has not elapsed no renewal is attempted and the report
is critical and not healthy. -/
theorem checkTokenHealth_critical_and_renewal (t lastA lastB : Int) (p : TokenPair)
    (hcool : t + 39600000 - lastA > REFRESH_COOLDOWN)
    (hnocool : ¬(t + 39600000 - lastB > REFRESH_COOLDOWN)) :
    checkTokenHealth (t + 39600000) (some ⟨some t⟩) lastA none
      = (⟨false, none, false, some 110, true, true⟩, t + 39600000, true)
    ∧ checkTokenHealth (t + 39600000) (some ⟨some t⟩) lastA (some p)
      = (⟨true, none, true, some 0, false, false⟩, t + 39600000, true)
    ∧ checkTokenHealth (t + 39600000) (some ⟨some t⟩) lastB none
      = (⟨false, none, false, some 110, true, true⟩, lastB, false) := by
  have hage : t + 39600000 - t = (39600000 : Int) := by ring
  have h2 : decide (t + 39600000 - lastA > REFRESH_COOLDOWN) = true := decide_eq_true hcool
  have h3 : decide (t + 39600000 - lastB > REFRESH_COOLDOWN) = false := decide_eq_false hnocool
  have hgtW : ageGT (some (39600000 : Int)) TOKEN_WARNING_AGE = true := by decide
  have hgtC : ageGT (some (39600000 : Int)) TOKEN_CRITICAL_AGE = true := by decide
  have hltC : ageLT (some (39600000 : Int)) TOKEN_CRITICAL_AGE = false := by decide
  have hrd : jsAgeHoursX10 (some (39600000 : Int)) = some 110 := by decide
  refine ⟨?_, ?_, ?_⟩ <;>
    simp [checkTokenHealth, tokenAgeOf, hage, h2, h3, hgtW, hgtC, hltC, hrd]

/-- C9 witness: at updatedAt 0 and now 39600000 ms (11 hours), with the
last attempt at -1 the cooldown has elapsed and both renewal outcomes
behave as stated, and with the last attempt at now it has not. -/
theorem checkTokenHealth_critical_and_renewal_witness :
    checkTokenHealth ((0 : Int) + 39600000) (some ⟨some 0⟩) (-1) none
      = (⟨false, none, false, some 110, true, true⟩, (0 : Int) + 39600000, true)
    ∧ checkTokenHealth ((0 : Int) + 39600000) (some ⟨some 0⟩) (-1) (some ⟨"tk", "ck"⟩)
      = (⟨true, none, true, some 0, false, false⟩, (0 : Int) + 39600000, true)
    ∧ checkTokenHealth ((0 : Int) + 39600000) (some ⟨some 0⟩) 39600000 none
      = (⟨false, none, false, some 110, true, true⟩, 39600000, false) :=
  checkTokenHealth_critical_and_renewal 0 (-1) 39600000 ⟨"tk", "ck"⟩ (by decide) (by decide)

/-- C10: the sanitization fails to strip every two-dot sequence, because
invalid characters are removed after the two-dot pass: the output_file
value of a line feed, a slash, and twice dot-pipe-dot followed by a file
name survives the path-component pass (the regex dot does not cross the
line feed), survives the two-dot pass (the pipes separate the dots), and
after pipe removal becomes newline slash dotdot slash dotdot slash name,
so the joined path escapes the export directory into the home directory:
the code writes outside the export directory on this input. -/
theorem export_path_escape_at_failing_input :
    sanitizeExportName "\n/.|./.|./evil.txt" = "\n/../../evil.txt"
    ∧ outputPathComponents ["home", "user", ".slack-mcp-exports"] "\n/.|./.|./evil.txt"
        = ["home", "user", "evil.txt"]
    ∧ (outputPathComponents ["home", "user", ".slack-mcp-exports"]
        "\n/.|./.|./evil.txt").take 3 ≠ ["home", "user", ".slack-mcp-exports"] := by
  refine ⟨?_, ?_, ?_⟩ <;> decide

end SlackMCP
